import Mathlib

/-!
# Verification of the Math-TD-game simulation core (Go / Ebiten)

A shallow embedding of the simulation core of `main.go` into Lean 4, together
with theorems settling the specification's claims about it.

Modelling conventions:
* Go `float64` values are embedded as rationals (`ℚ`).  All arithmetic the
  claims depend on (additions, subtractions, multiplications, divisions by
  nonzero quantities, comparisons, `math.Max`, `math.Floor`) is exact on the
  rational inputs arising here, so `ℚ` is a faithful carrier.
* `math.Hypot` (Euclidean distance) is irrational in general.  Where the code
  only *compares* distances (`applyDamageAt`), we compare squared distances,
  which is equivalent because `Real.sqrt` is strictly monotone on nonnegative
  inputs.  Where the code *divides* by a distance (enemy movement), the
  distance function is a parameter `d : Vec → Vec → ℚ` of the embedding; the
  claims involved depend only on its positivity, never on its value.
* `rand.Rand` is embedded as a stream `r : Nat → Nat` together with a cursor
  index; `r.Intn n` consumes one stream element and returns `r i % n`, which
  is faithful to `Intn`'s contract (a value in `[0, n)`); `r.Float64`
  consumes one element and returns `(r i % 2^53) / 2^53 ∈ [0, 1)`.
* Go `int` fields are embedded as `ℤ`, except counters that the program only
  ever increments or resets to zero (kill counter, spawn counters, upgrade
  levels, thresholds), which are embedded as `ℕ`; no subtraction is ever
  applied to those in the source.
* Fallible code paths (indexing that can panic in Go) return `Option`.
-/

namespace MathTD

/-- 2D point, Go struct `Vec` (main.go line 50). -/
structure Vec where
  X : ℚ
  Y : ℚ
  deriving DecidableEq, Repr

instance : Inhabited Vec := ⟨⟨0, 0⟩⟩

/-- Go struct `Enemy` (main.go lines 52-64).  `BurnLevel` is a Go `int`. -/
structure Enemy where
  HP : ℚ
  MaxHP : ℚ
  Armor : ℚ
  Speed : ℚ
  T : ℚ
  BurnTime : ℚ
  BurnLevel : ℤ
  BurnTick : ℚ
  SlowTime : ℚ
  SlowFactor : ℚ
  deriving DecidableEq, Repr

instance : Inhabited Enemy := ⟨⟨0, 0, 0, 0, 0, 0, 0, 0, 0, 0⟩⟩

/-- Go struct `Tower` (main.go lines 66-76); the Go field `Type` (a string
tag, `"normal" | "flame" | "slow"`) is called `variant` here because `Type`
is a Lean keyword. -/
structure Tower where
  X : ℚ
  Y : ℚ
  Range : ℚ
  Damage : ℚ
  Fire : ℚ
  Cd : ℚ
  variant : String
  FlameDuration : ℚ
  PulseDuration : ℚ
  deriving DecidableEq, Repr

/-- Go struct `Bullet` (main.go lines 78-85). -/
structure Bullet where
  X : ℚ
  Y : ℚ
  Tx : ℚ
  Ty : ℚ
  Speed : ℚ
  Damage : ℚ
  Penetration : ℚ
  AoeRadius : ℚ
  deriving DecidableEq, Repr

/-- Go struct `Question` (main.go lines 87-90). -/
structure Question where
  Text : String
  Ans : ℤ
  deriving DecidableEq, Repr

/-! Tuning constants (main.go lines 17-48). -/

def ScreenW : ℤ := 800
def ScreenH : ℤ := 600
def EnemyBaseHPMin : ℚ := 100
def EnemyBaseHPMax : ℚ := 200
def EnemyHPScalePerLevel : ℚ := 18 / 100
def EnemyArmorPerLevel : ℚ := 1 / 2
def EnemySpeedBase : ℚ := 10
def EnemySpeedRandMax : ℚ := 40
def EnemySpeedPerLevel : ℚ := 2
def EnemiesPerLevelMin : ℕ := 30
def EnemiesPerLevelMax : ℕ := 50
def SpawnIntervalBase : ℚ := 2000
def SpawnIntervalDecay : ℚ := 150
def SpawnIntervalMin : ℚ := 600
def PlayerEscapeBaseDamage : ℚ := 10
def InterLevelPauseMS : ℚ := 20000

/-- Go struct `Game` (main.go lines 92-132), plus the embedded random stream
(`rng`, `rngIdx`) standing for the `*rand.Rand` field. -/
structure Game where
  path : List Vec
  enemies : List Enemy
  towers : List Tower
  bullets : List Bullet
  lastSpawn : ℚ
  spawnInt : ℚ
  selected : ℤ
  lastClick : Vec
  challengeActive : Bool
  question : Option Question
  inputBuf : String
  rng : Nat → Nat
  rngIdx : Nat
  killCount : ℕ
  nextLevelThreshold : ℕ
  level : ℤ
  levelMsg : String
  levelMsgTimer : ℚ
  enemiesToSpawn : ℕ
  enemiesSpawned : ℕ
  playerHP : ℚ
  playerArmor : ℚ
  playerGold : ℤ
  shopActive : Bool
  upDamageLevel : ℕ
  upSpeedLevel : ℕ
  upPenLevel : ℕ
  upAOELevel : ℕ
  interLevelActive : Bool
  interLevelTimer : ℚ

/-- Squared Euclidean distance.  The source compares `math.Hypot` values
against each other and against nonnegative thresholds; comparing the squares
is equivalent since squaring is strictly monotone on nonnegative reals. -/
def distSq (a b : Vec) : ℚ := (a.X - b.X) ^ 2 + (a.Y - b.Y) ^ 2

/-- List indexing by a Go `int`.  Go panics on an out-of-range index; callers
in this development only use in-range indices (stated and proved where it
matters), so the out-of-range result here is an arbitrary default. -/
def getVec (path : List Vec) (i : ℤ) : Vec :=
  if 0 ≤ i then path.getD i.toNat default else default

/-- `posAlongPath` (main.go lines 721-731) with Go's indexing panics made
explicit: `none` models a runtime index-out-of-range panic.  For `⌊t⌋` at or
beyond the last segment index the final waypoint is returned; otherwise the
code reads `path[i]` and `path[i+1]`, which panics when `⌊t⌋ < 0`. -/
def posAlongPathChecked (path : List Vec) (t : ℚ) : Option Vec :=
  let i : ℤ := ⌊t⌋
  let frac : ℚ := t - (i : ℚ)
  if (path.length : ℤ) - 1 ≤ i then
    path[path.length - 1]?
  else if i < 0 then
    none
  else
    match path[i.toNat]?, path[i.toNat + 1]? with
    | some a, some b => some ⟨a.X + (b.X - a.X) * frac, a.Y + (b.Y - a.Y) * frac⟩
    | _, _ => none

/-- `posAlongPath` on its non-panicking domain (`0 ≤ t`, at least two
waypoints), extended by junk defaults elsewhere; agrees with
`posAlongPathChecked` there (see `posAlongPathChecked_eq_some`).  Callers in
the simulation maintain `0 ≤ T`. -/
def posAlongPathD (path : List Vec) (t : ℚ) : Vec :=
  let i : ℤ := ⌊t⌋
  let frac : ℚ := t - (i : ℚ)
  if (path.length : ℤ) - 1 ≤ i then
    path.getD (path.length - 1) default
  else
    let a := getVec path i
    let b := getVec path (i + 1)
    ⟨a.X + (b.X - a.X) * frac, a.Y + (b.Y - a.Y) * frac⟩

/-- The checked lookup never fails on `0 ≤ t` when the path has ≥ 2 points,
and agrees with the total version. -/
theorem posAlongPathChecked_eq_some (path : List Vec) (t : ℚ)
    (hlen : 2 ≤ path.length) (ht : 0 ≤ t) :
    posAlongPathChecked path t = some (posAlongPathD path t) := by
  have hfloor : 0 ≤ ⌊t⌋ := Int.floor_nonneg.mpr ht
  unfold posAlongPathChecked posAlongPathD
  by_cases hclamp : (path.length : ℤ) - 1 ≤ ⌊t⌋
  · simp only [hclamp, if_pos]
    have hlt : path.length - 1 < path.length := by omega
    rw [List.getElem?_eq_getElem hlt, List.getD_eq_getElem _ _ hlt]
  · have hneg : ¬ ⌊t⌋ < 0 := by omega
    simp only [hclamp, hneg, if_neg, not_false_iff, if_false]
    have hnlt' : ⌊t⌋.toNat < path.length := by omega
    have hnlt : ⌊t⌋.toNat + 1 < path.length := by omega
    simp only [List.getElem?_eq_getElem hnlt', List.getElem?_eq_getElem hnlt]
    have hg1 : getVec path ⌊t⌋ = path[⌊t⌋.toNat] := by
      simp only [getVec, if_pos hfloor]
      exact List.getD_eq_getElem _ _ hnlt'
    have hg2 : getVec path (⌊t⌋ + 1) = path[⌊t⌋.toNat + 1] := by
      have h1 : (0:ℤ) ≤ ⌊t⌋ + 1 := by omega
      have h2 : (⌊t⌋ + 1).toNat = ⌊t⌋.toNat + 1 := by omega
      simp only [getVec, if_pos h1, h2]
      exact List.getD_eq_getElem _ _ hnlt
    rw [hg1, hg2]

/-! ## Enemy movement and escape (main.go lines 282-303) -/

/-- Milliseconds per frame: `dt := 1.0 / 60.0 * 1000.0` (main.go line 172). -/
def dtFrame : ℚ := 1 / 60 * 1000

/-- One enemy's movement for one tick (main.go lines 285-291):
`seg = ⌊T⌋`; the segment length is the distance between waypoints `seg` and
`seg+1` when `seg < len(path)-1`, else `1.0`; the movement fraction is
`Speed * dt / 1000 / segLen`, added to `T`.  The Euclidean distance is the
parameter `d` (see the header); Go would panic indexing with `seg < 0`, a
case the simulation never reaches (enemies keep `0 ≤ T`). -/
def stepEnemy (d : Vec → Vec → ℚ) (path : List Vec) (dt : ℚ) (e : Enemy) : Enemy :=
  let seg : ℤ := ⌊e.T⌋
  let segLen : ℚ :=
    if seg < (path.length : ℤ) - 1 then d (getVec path seg) (getVec path (seg + 1)) else 1
  let frac := e.Speed * dt / 1000 / segLen
  { e with T := e.T + frac }

/-- Escape damage to the player (main.go lines 294-297):
`mitig = PlayerEscapeBaseDamage - playerArmor`, floored at `1`. -/
def escapeMitig (armor : ℚ) : ℚ :=
  let mitig := PlayerEscapeBaseDamage - armor
  if mitig < 1 then 1 else mitig

/-- The enemy-update loop (main.go lines 283-303): every enemy advances by
`stepEnemy`; an enemy whose new `T` reaches `len(path)-1` escapes — the
player takes `escapeMitig` damage and the enemy is removed.  Returns the
total HP loss and the surviving enemies.  The Go loop runs from the top
index down and removes in place; as each element is visited exactly once and
the per-element effect does not depend on the others, left-to-right
recursion produces the identical result (survivor order preserved). -/
def moveEnemies (d : Vec → Vec → ℚ) (path : List Vec) (armor dt : ℚ) :
    List Enemy → ℚ × List Enemy
  | [] => (0, [])
  | e :: rest =>
    let e' := stepEnemy d path dt e
    let (loss, surv) := moveEnemies d path armor dt rest
    if (((path.length : ℤ) - 1 : ℤ) : ℚ) ≤ e'.T then
      (escapeMitig armor + loss, surv)
    else
      (loss, e' :: surv)

/-- Game-level wrapper for the enemy-update loop: HP decreases by the
accumulated escape damage, enemies are replaced by the survivors; no other
`Game` field is touched (main.go lines 283-303 write only `playerHP` and
`enemies`). -/
def moveEnemiesG (d : Vec → Vec → ℚ) (dt : ℚ) (g : Game) : Game :=
  let out := moveEnemies d g.path g.playerArmor dt g.enemies
  { g with playerHP := g.playerHP - out.1, enemies := out.2 }

/-! ## Status effects (main.go lines 360-384) -/

/-- Number of iterations of the burn `while` loop
`for BurnTick >= 1000 { ... BurnTick -= 1000 }` given the accumulator value:
`0` when the accumulator is below `1000`, else `⌊acc / 1000⌋` (after which
the accumulator lands in `[0, 1000)`).  Closed form of the loop count. -/
def burnIterations (acc : ℚ) : ℕ :=
  if acc < 1000 then 0 else (⌊acc / 1000⌋).toNat

/-- Per-enemy status processing (main.go lines 361-383): burn accumulates
`dt` and deals `100 * BurnLevel` damage per elapsed 1000 ms tick (the `for`
loop is rendered by its closed-form iteration count `burnIterations`), then
`BurnTime` decreases (floored at 0); slow only decrements its timer, and
resets `SlowFactor` to 1 when the timer falls below zero. -/
def statusTick (dt : ℚ) (e : Enemy) : Enemy :=
  let e1 :=
    if 0 < e.BurnTime then
      let acc := e.BurnTick + dt
      let k := burnIterations acc
      let hp := e.HP - ((100 * e.BurnLevel : ℤ) : ℚ) * k
      let bt := e.BurnTime - dt
      { e with
        HP := hp
        BurnTick := acc - 1000 * k
        BurnTime := if bt < 0 then 0 else bt }
    else e
  if 0 < e1.SlowTime then
    let s := e1.SlowTime - dt
    if s < 0 then { e1 with SlowTime := 0, SlowFactor := 1 }
    else { e1 with SlowTime := s }
  else e1

/-! ## Spawning (main.go lines 605-616) -/

/-- `rand.Float64` draw at stream position `i`: a rational in `[0, 1)`. -/
def randFloat (r : Nat → Nat) (i : Nat) : ℚ :=
  ((r i % 2 ^ 53 : ℕ) : ℚ) / 2 ^ 53

/-- `spawnEnemy` (main.go lines 605-616): HP base uniform in
`[EnemyBaseHPMin, EnemyBaseHPMax)` scaled by `1 + (level-1) * 0.18`; armor
`level * 0.5`; speed `10 + rand * 40 + (level-1) * 2`; `T = 0`; all status
fields are Go zero values.  Consumes two random draws (`i`, `i+1`). -/
def spawnEnemy (r : Nat → Nat) (i : Nat) (level : ℤ) : Enemy :=
  let base := EnemyBaseHPMin + randFloat r i * (EnemyBaseHPMax - EnemyBaseHPMin)
  let hp := base * (1 + ((level - 1 : ℤ) : ℚ) * EnemyHPScalePerLevel)
  let armor := (level : ℚ) * EnemyArmorPerLevel
  let speed := EnemySpeedBase + randFloat r (i + 1) * EnemySpeedRandMax
    + ((level - 1 : ℤ) : ℚ) * EnemySpeedPerLevel
  { HP := hp, MaxHP := hp, Armor := armor, Speed := speed, T := 0,
    BurnTime := 0, BurnLevel := 0, BurnTick := 0, SlowTime := 0, SlowFactor := 0 }

/-! ## Combat resolution (main.go lines 681-719) -/

/-- The damage applied to one enemy (main.go lines 697-703 and 711-716):
`effArmor = max(0, Armor - penetration)`, `dmg = baseDamage - effArmor`,
floored at `1`. -/
def dmgOf (baseDamage armor penetration : ℚ) : ℚ :=
  let effArmor := max 0 (armor - penetration)
  let dmg := baseDamage - effArmor
  if dmg < 1 then 1 else dmg

/-- The nearest-enemy scan of `applyDamageAt`'s single-target branch
(main.go lines 685-694): track the best index and best distance, starting
from `(-1, 1e9)`.  Distances are compared squared (`1e9` becomes `1e18`),
which is equivalent for `math.Hypot` values since both are nonnegative. -/
def nearestScan (path : List Vec) (x y : ℚ) (enemies : List Enemy) : ℤ × ℚ :=
  enemies.enum.foldl
    (fun best ie =>
      let p := posAlongPathD path ie.2.T
      let dsq := distSq p ⟨x, y⟩
      if dsq < best.2 then ((ie.1 : ℤ), dsq) else best)
    (-1, 10 ^ 18)

/-- `applyDamageAt` (main.go lines 682-719).  `aoeRadius ≤ 0`: the nearest
enemy takes damage if within 18 px of the point (`18²` squared); otherwise
every enemy within `aoeRadius` (squared comparison, valid since
`aoeRadius > 0` in this branch) takes damage. -/
def applyDamageAt (g : Game) (x y baseDamage penetration aoeRadius : ℚ) : Game :=
  if aoeRadius ≤ 0 then
    let best := nearestScan g.path x y g.enemies
    if 0 ≤ best.1 ∧ best.2 < 18 ^ 2 then
      match g.enemies[best.1.toNat]? with
      | some e =>
        let e' := { e with HP := e.HP - dmgOf baseDamage e.Armor penetration }
        { g with enemies := g.enemies.set best.1.toNat e' }
      | none => g
    else g
  else
    { g with enemies := g.enemies.map (fun e =>
        let p := posAlongPathD g.path e.T
        if distSq p ⟨x, y⟩ ≤ aoeRadius ^ 2 then
          { e with HP := e.HP - dmgOf baseDamage e.Armor penetration }
        else e) }

/-! ## Upgrade shop (main.go lines 618-659) -/

/-- Go's `int(f)` conversion for `float64`: truncation toward zero. -/
def goTrunc (q : ℚ) : ℤ := if q < 0 then -⌊-q⌋ else ⌊q⌋

/-- The click-to-line decoding of `handleShopClick` (main.go lines 620-632):
`none` when the click misses the shop panel or the button area, else the
line index `relY / 40`.  Panel geometry: `x0 = (800-420)/2 = 190`,
`y0 = (600-260)/2 = 170` (Go integer division). -/
def shopClickIdx (x y : ℚ) : Option ℕ :=
  let w : ℚ := 420
  let h : ℚ := 260
  let x0 : ℚ := (((ScreenW - 420) / 2 : ℤ) : ℚ)
  let y0 : ℚ := (((ScreenH - 260) / 2 : ℤ) : ℚ)
  if x < x0 ∨ x0 + w < x ∨ y < y0 ∨ y0 + h < y then none
  else
    let relY : ℤ := goTrunc (y - (y0 + 50))
    if relY < 0 ∨ 200 < relY then none
    else some (relY / 40).toNat

/-- The purchase `switch` of `handleShopClick` (main.go lines 633-658): for
track `idx`, cost is `base * (1 + level)` (bases 50/40/60/80); the purchase
happens only when `playerGold ≥ cost`; any other index does nothing. -/
def applyPurchase (g : Game) (idx : ℕ) : Game :=
  match idx with
  | 0 =>
    let cost : ℤ := 50 * (1 + (g.upDamageLevel : ℤ))
    if cost ≤ g.playerGold then
      { g with playerGold := g.playerGold - cost, upDamageLevel := g.upDamageLevel + 1 }
    else g
  | 1 =>
    let cost : ℤ := 40 * (1 + (g.upSpeedLevel : ℤ))
    if cost ≤ g.playerGold then
      { g with playerGold := g.playerGold - cost, upSpeedLevel := g.upSpeedLevel + 1 }
    else g
  | 2 =>
    let cost : ℤ := 60 * (1 + (g.upPenLevel : ℤ))
    if cost ≤ g.playerGold then
      { g with playerGold := g.playerGold - cost, upPenLevel := g.upPenLevel + 1 }
    else g
  | 3 =>
    let cost : ℤ := 80 * (1 + (g.upAOELevel : ℤ))
    if cost ≤ g.playerGold then
      { g with playerGold := g.playerGold - cost, upAOELevel := g.upAOELevel + 1 }
    else g
  | _ => g

/-- `handleShopClick` (main.go lines 619-659): decode the click, then run
the purchase switch. -/
def handleShopClick (g : Game) (x y : ℚ) : Game :=
  match shopClickIdx x y with
  | none => g
  | some idx => applyPurchase g idx

/-! ## Level progression (main.go lines 753-791) and kill reaping (403-418) -/

/-- The waypoint loop of `newLevel` (main.go lines 765-769): each waypoint
draws `x = 100 + Intn(ScreenW-200)` then `y = 80 + Intn(ScreenH-160)`
(moduli 600 and 440); returns the waypoints and the advanced cursor. -/
def genWaypoints (r : Nat → Nat) (i : Nat) : Nat → List Vec × Nat
  | 0 => ([], i)
  | n + 1 =>
    let x : ℚ := 100 + ((r i % 600 : ℕ) : ℚ)
    let y : ℚ := 80 + ((r (i + 1) % 440 : ℕ) : ℚ)
    let out := genWaypoints r (i + 2) n
    (⟨x, y⟩ :: out.1, out.2)

/-- `newLevel` (main.go lines 753-791): level increments; the kill counter
resets; a kill threshold `20 + Intn(11)` and spawn quota
`EnemiesPerLevelMin + Intn(EnemiesPerLevelMax-EnemiesPerLevelMin+1)` are
drawn; the spawn counter resets; a new path with `3 + Intn(5)` random
interior waypoints between the fixed edge anchors replaces the old one; the
spawn interval decays by `SpawnIntervalDecay`, floored at
`SpawnIntervalMin`; a 3-second level message is set; the inter-level pause
starts when the (new) level exceeds 1. -/
def newLevel (g : Game) : Game :=
  let r := g.rng
  let i := g.rngIdx
  let level' := g.level + 1
  let thr : ℕ := 20 + r i % 11
  let quota : ℕ := EnemiesPerLevelMin + r (i + 1) % (EnemiesPerLevelMax - EnemiesPerLevelMin + 1)
  let wp : ℕ := 3 + r (i + 2) % 5
  let pts := genWaypoints r (i + 3) wp
  let newPath : List Vec := ⟨0, 300⟩ :: (pts.1 ++ [⟨(ScreenW : ℚ), 300⟩])
  let spawnInt' :=
    if SpawnIntervalMin < g.spawnInt then
      let s := g.spawnInt - SpawnIntervalDecay
      if s < SpawnIntervalMin then SpawnIntervalMin else s
    else g.spawnInt
  { g with
    level := level'
    killCount := 0
    nextLevelThreshold := thr
    enemiesToSpawn := quota
    enemiesSpawned := 0
    path := newPath
    spawnInt := spawnInt'
    levelMsg := "Level " ++ toString level' ++ " - New path generated! Next threshold: "
      ++ toString thr ++ " kills"
    levelMsgTimer := 3000
    interLevelActive := decide (1 < level')
    interLevelTimer := if 1 < level' then InterLevelPauseMS else 0
    rngIdx := pts.2 }

/-- The per-dead-enemy bookkeeping of the reap loop (main.go lines 406-416):
the kill counter increments first, gold grows by `10 * killCount` (so the
Nth kill of the level pays `10 N`), and reaching the threshold triggers
`newLevel`. -/
def killStep (g : Game) : Game :=
  let g1 := { g with killCount := g.killCount + 1 }
  let g2 := { g1 with playerGold := g1.playerGold + 10 * (g1.killCount : ℤ) }
  if g2.nextLevelThreshold ≤ g2.killCount then newLevel g2 else g2

/-- The dead-enemy removal loop (main.go lines 404-418), recursing over the
pending enemies with an accumulator of survivors.  The Go loop runs from the
top index down; since the per-element effect depends only on the liveness
test `HP ≤ 0` (never on the element's position or on other elements), the
resulting state is identical for left-to-right traversal, and survivors keep
their relative order either way. -/
def reapAux : Game → List Enemy → List Enemy → Game
  | g, [], acc => { g with enemies := acc.reverse }
  | g, e :: rest, acc =>
    if e.HP ≤ 0 then reapAux (killStep g) rest acc else reapAux g rest (e :: acc)

/-- Entry point of the reap loop (main.go lines 403-418). -/
def reapDead (g : Game) : Game := reapAux g g.enemies []

/-! ## Question generation (main.go lines 793-866) -/

/-- The operands, operator, answer and advanced random cursor produced by
one run of `genQuestion`. -/
structure QGen where
  a : ℤ
  op : String
  b : ℤ
  ans : ℤ
  next : Nat
  deriving DecidableEq, Repr

/-- `genQuestion`'s arithmetic (main.go lines 793-866).  Branches by level:
≤2 small add/sub on `1..12`; ≤5 add/sub/mul on `1..20`; ≤9 add/sub/mul on
`2..19`; otherwise the operator is drawn from `[+,-,*,/]` (`ops[Intn(4)]`
over the identity array), where division builds `b ∈ 2..19`, `q ∈ 2..13`,
`a = b*q` and answers `a / b` (Go's truncated integer division; exact here,
so all division conventions agree), and the other operators use operands
`5..49`. -/
def genQuestionData (r : Nat → Nat) (i : Nat) (level : ℤ) : QGen :=
  if level ≤ 2 then
    let a : ℤ := 1 + ((r i % 12 : ℕ) : ℤ)
    let b : ℤ := 1 + ((r (i + 1) % 12 : ℕ) : ℤ)
    if r (i + 2) % 2 = 0 then ⟨a, "+", b, a + b, i + 3⟩
    else ⟨a, "-", b, a - b, i + 3⟩
  else if level ≤ 5 then
    let a : ℤ := 1 + ((r i % 20 : ℕ) : ℤ)
    let b : ℤ := 1 + ((r (i + 1) % 20 : ℕ) : ℤ)
    let oi := r (i + 2) % 3
    if oi = 0 then ⟨a, "+", b, a + b, i + 3⟩
    else if oi = 1 then ⟨a, "-", b, a - b, i + 3⟩
    else ⟨a, "*", b, a * b, i + 3⟩
  else if level ≤ 9 then
    let a : ℤ := 2 + ((r i % 18 : ℕ) : ℤ)
    let b : ℤ := 2 + ((r (i + 1) % 18 : ℕ) : ℤ)
    let oi := r (i + 2) % 3
    if oi = 0 then ⟨a, "+", b, a + b, i + 3⟩
    else if oi = 1 then ⟨a, "-", b, a - b, i + 3⟩
    else ⟨a, "*", b, a * b, i + 3⟩
  else
    let oi := r i % 4
    if oi = 3 then
      let b : ℤ := 2 + ((r (i + 1) % 18 : ℕ) : ℤ)
      let q : ℤ := 2 + ((r (i + 2) % 12 : ℕ) : ℤ)
      let a : ℤ := b * q
      ⟨a, "/", b, a / b, i + 3⟩
    else
      let a : ℤ := 5 + ((r (i + 1) % 45 : ℕ) : ℤ)
      let b : ℤ := 5 + ((r (i + 2) % 45 : ℕ) : ℤ)
      if oi = 0 then ⟨a, "+", b, a + b, i + 3⟩
      else if oi = 1 then ⟨a, "-", b, a - b, i + 3⟩
      else ⟨a, "*", b, a * b, i + 3⟩

/-- `genQuestion` (main.go line 865): formats `"a op b"` and pairs it with
the expected answer; returns the advanced random cursor. -/
def genQuestion (r : Nat → Nat) (i : Nat) (level : ℤ) : Question × Nat :=
  let d := genQuestionData r i level
  ({ Text := toString d.a ++ " " ++ d.op ++ " " ++ toString d.b, Ans := d.ans }, d.next)

/-! ## Challenge input handling (main.go lines 203-253) and rewards (733-751) -/

/-- Digit-run parsing for `strconv.Atoi`: accumulates decimal digits, `none`
on an empty run or any non-digit character. -/
def atoiDigits (acc : ℕ) : List Char → Option ℕ
  | [] => some acc
  | c :: rest =>
    if '0' ≤ c ∧ c ≤ '9' then atoiDigits (acc * 10 + (c.toNat - 48)) rest
    else none

/-- `strconv.Atoi` (used at main.go line 241): optional single leading sign,
then one or more decimal digits; anything else is an error (`none`).  Go's
64-bit range check is dropped (`ℤ` is unbounded); the challenge buffer never
comes near the boundary. -/
def atoi (s : String) : Option ℤ :=
  match s.data with
  | [] => none
  | '-' :: rest =>
    if rest.isEmpty then none else (atoiDigits 0 rest).map (fun n => -(n : ℤ))
  | '+' :: rest =>
    if rest.isEmpty then none else (atoiDigits 0 rest).map (fun n => (n : ℤ))
  | cs => (atoiDigits 0 cs).map (fun n => (n : ℤ))

/-- The just-pressed key events consumed by one `Update` call
(main.go lines 203-253): C, B, the ten digit keys, backspace, minus,
enter (Enter or keypad Enter), and escape. -/
structure Keys where
  keyC : Bool
  keyB : Bool
  digit : Nat → Bool
  backspace : Bool
  minus : Bool
  enter : Bool
  escape : Bool

/-- A `Keys` value with nothing pressed. -/
def Keys.none : Keys :=
  { keyC := false, keyB := false, digit := fun _ => false, backspace := false,
    minus := false, enter := false, escape := false }

/-- `applyReward` (main.go lines 733-751): draw one `Float64`; with a tower
selected, 33% +1 damage / 33% +20 range / else fire interval lowered by 100
floored at 150; with no selection, append a standard tower at the last
click point (default `(100,250)` when that is the origin).  The selected
index is in range whenever `0 ≤ selected` (selection comes from iterating
the towers), so the `none` arm is unreachable in the simulation. -/
def applyReward (g : Game) : Game :=
  let reward := randFloat g.rng g.rngIdx
  let g' := { g with rngIdx := g.rngIdx + 1 }
  if 0 ≤ g.selected then
    match g'.towers[g.selected.toNat]? with
    | some tw =>
      let tw' :=
        if reward < 33 / 100 then { tw with Damage := tw.Damage + 1 }
        else if reward < 66 / 100 then { tw with Range := tw.Range + 20 }
        else { tw with Fire := max 150 (tw.Fire - 100) }
      { g' with towers := g'.towers.set g.selected.toNat tw' }
    | none => g'
  else
    let pos := if g.lastClick.X = 0 ∧ g.lastClick.Y = 0 then (⟨100, 250⟩ : Vec) else g.lastClick
    let tw : Tower :=
      { X := pos.X, Y := pos.Y, Range := 120, Damage := 2, Fire := 700, Cd := 0,
        variant := "", FlameDuration := 0, PulseDuration := 0 }
    { g' with towers := g'.towers ++ [tw] }

/-- The digit loop (main.go lines 223-228): for each pressed digit key, in
ascending key order, append its decimal character to the buffer. -/
def appendDigits (k : Keys) (buf : String) : String :=
  (List.range 10).foldl (fun b d => if k.digit d then b ++ toString d else b) buf

/-- The challenge-active input block (main.go lines 221-253), run only while
`challengeActive`: digits are appended; backspace drops the last character;
minus seeds an empty buffer; enter parses the buffer and rewards an exact
match against the open question (Go dereferences `g.question` here — `nil`
is impossible since the challenge only opens together with a question), then
closes; escape closes.  The steps run in source order. -/
def challengeInput (g : Game) (k : Keys) : Game :=
  let g1 := { g with inputBuf := appendDigits k g.inputBuf }
  let g2 :=
    if k.backspace ∧ 0 < g1.inputBuf.length then
      { g1 with inputBuf := g1.inputBuf.dropRight 1 }
    else g1
  let g3 := if k.minus ∧ g2.inputBuf.length = 0 then { g2 with inputBuf := "-" } else g2
  let g4 :=
    if k.enter then
      let correct : Bool :=
        match atoi g3.inputBuf, g3.question with
        | some ans, some q => decide (ans = q.Ans)
        | _, _ => false
      let g' := if correct then applyReward g3 else g3
      { g' with challengeActive := false, inputBuf := "" }
    else g3
  if k.escape then { g4 with challengeActive := false, inputBuf := "" } else g4

/-- The keyboard segment of `Update` (main.go lines 203-253), in source
order: C opens a challenge when none is active (drawing a fresh question); B
toggles the shop and closes the challenge when the toggle opened the shop;
then, if a challenge is (still) active, the challenge input block runs. -/
def handleKeys (g : Game) (k : Keys) : Game :=
  let g1 :=
    if k.keyC ∧ g.challengeActive = false then
      let q := genQuestion g.rng g.rngIdx g.level
      { g with question := some q.1, inputBuf := "", challengeActive := true, rngIdx := q.2 }
    else g
  let g2 :=
    if k.keyB then
      let gb := { g1 with shopActive := !g1.shopActive }
      if gb.shopActive then { gb with challengeActive := false } else gb
    else g1
  if g2.challengeActive then challengeInput g2 k else g2

/-- `NewGame` (main.go lines 134-167), parameterized by the random stream:
the fixed starter path and three seeded towers, initial threshold
`20 + Intn(11)` and spawn quota `30 + Intn(21)`, level 1, player HP 100,
armor 2, gold 0, no overlays, all upgrade levels 0. -/
def NewGame (r : Nat → Nat) : Game :=
  { path := [⟨0, 300⟩, ⟨200, 300⟩, ⟨200, 100⟩, ⟨600, 100⟩, ⟨600, 400⟩, ⟨800, 400⟩]
    enemies := []
    towers := [
      { X := 150, Y := 220, Range := 120, Damage := 2, Fire := 700, Cd := 0,
        variant := "normal", FlameDuration := 0, PulseDuration := 0 },
      { X := 300, Y := 220, Range := 100, Damage := 0, Fire := 200, Cd := 0,
        variant := "flame", FlameDuration := 5000, PulseDuration := 0 },
      { X := 450, Y := 220, Range := 140, Damage := 0, Fire := 1500, Cd := 0,
        variant := "slow", FlameDuration := 0, PulseDuration := 1200 }]
    bullets := []
    lastSpawn := 0
    spawnInt := SpawnIntervalBase
    selected := -1
    lastClick := ⟨0, 0⟩
    challengeActive := false
    question := Option.none
    inputBuf := ""
    rng := r
    rngIdx := 2
    killCount := 0
    nextLevelThreshold := 20 + r 0 % 11
    level := 1
    levelMsg := ""
    levelMsgTimer := 0
    enemiesToSpawn := EnemiesPerLevelMin + r 1 % (EnemiesPerLevelMax - EnemiesPerLevelMin + 1)
    enemiesSpawned := 0
    playerHP := 100
    playerArmor := 2
    playerGold := 0
    shopActive := false
    upDamageLevel := 0
    upSpeedLevel := 0
    upPenLevel := 0
    upAOELevel := 0
    interLevelActive := false
    interLevelTimer := 0 }

/-! ## Claim theorems -/

/-- C1: every combat resolution of `applyDamageAt` (single-target and AoE)
subtracts exactly `max(1, baseDamage - max(0, armor - penetration))` from an
affected enemy's HP — an unaffected enemy is unchanged — and this value is
at least 1 for every combination of base damage, armor and penetration. -/
theorem applyDamageAt_damage_floor (g : Game) (x y baseDamage penetration aoeRadius : ℚ) :
    (∀ e' ∈ (applyDamageAt g x y baseDamage penetration aoeRadius).enemies,
      e' ∈ g.enemies ∨
        ∃ e ∈ g.enemies, e' = { e with HP := e.HP - dmgOf baseDamage e.Armor penetration })
    ∧ (∀ base armor pen : ℚ,
        dmgOf base armor pen = max 1 (base - max 0 (armor - pen)) ∧ 1 ≤ dmgOf base armor pen) := by
  constructor
  · intro e' he'
    unfold applyDamageAt at he'
    by_cases hr : aoeRadius ≤ 0
    · rw [if_pos hr] at he'
      by_cases hcond : 0 ≤ (nearestScan g.path x y g.enemies).1 ∧
          (nearestScan g.path x y g.enemies).2 < 18 ^ 2
      · rw [if_pos hcond] at he'
        cases hget : g.enemies[(nearestScan g.path x y g.enemies).1.toNat]? with
        | none => rw [hget] at he'; exact Or.inl he'
        | some e =>
          rw [hget] at he'
          simp only at he'
          rcases List.mem_or_eq_of_mem_set he' with hmem | heq
          · exact Or.inl hmem
          · refine Or.inr ⟨e, ?_, heq⟩
            have := List.getElem?_eq_some.mp hget
            obtain ⟨hlt, hval⟩ := this
            exact hval ▸ List.getElem_mem hlt
      · rw [if_neg hcond] at he'
        exact Or.inl he'
    · rw [if_neg hr] at he'
      simp only [List.mem_map] at he'
      obtain ⟨e, hmem, heq⟩ := he'
      by_cases hhit : distSq (posAlongPathD g.path e.T) ⟨x, y⟩ ≤ aoeRadius ^ 2
      · rw [if_pos hhit] at heq
        exact Or.inr ⟨e, hmem, heq.symm⟩
      · rw [if_neg hhit] at heq
        exact Or.inl (heq ▸ hmem)
  · intro base armor pen
    unfold dmgOf
    constructor
    · by_cases h : base - max 0 (armor - pen) < 1
      · rw [if_pos h]; exact (max_eq_left h.le).symm
      · rw [if_neg h]; exact (max_eq_right (not_lt.mp h)).symm
    · by_cases h : base - max 0 (armor - pen) < 1
      · rw [if_pos h]
      · rw [if_neg h]; exact not_lt.mp h

/-- Scenario from the spec: enemy armor 3, base damage 10, penetration 1 ⇒
damage 8; an enemy with 150 HP drops to 142.  Applies C1 at the concrete
game `gA`. -/
def eA : Enemy :=
  { HP := 150, MaxHP := 150, Armor := 3, Speed := 10, T := 0,
    BurnTime := 0, BurnLevel := 0, BurnTick := 0, SlowTime := 0, SlowFactor := 0 }

/-- One-enemy game for the C1 witness. -/
def gA : Game := { NewGame (fun _ => 0) with enemies := [eA] }

/-- Witness for C1 at a concrete input. -/
theorem applyDamageAt_damage_floor_witness :
    ({ eA with HP := 142 } ∈ gA.enemies ∨
      ∃ e ∈ gA.enemies,
        ({ eA with HP := 142 } : Enemy) = { e with HP := e.HP - dmgOf 10 e.Armor 1 })
    ∧ 1 ≤ dmgOf 10 3 1 :=
  ⟨(applyDamageAt_damage_floor gA 0 300 10 1 0).1 { eA with HP := 142 }
      (by with_unfolding_all decide),
   ((applyDamageAt_damage_floor gA 0 300 10 1 0).2 10 3 1).2⟩

/-- `newLevel` never touches the player's gold. -/
theorem newLevel_playerGold (g : Game) : (newLevel g).playerGold = g.playerGold := by
  simp only [newLevel]

/-- C2: in the reap loop, processing one dead enemy when the level's kill
counter stands at `k` (so this is kill number `k+1` of the level) pays
exactly `10 * (k+1)` gold — the counter is incremented before the award —
and leaves the counter at `k+1` unless the level threshold was reached, in
which case `newLevel` resets it to `0`, so the next level's first kill pays
`10 * 1` again.  The last two conjuncts tie `killStep` to the actual
removal loop `reapAux`. -/
theorem killStep_gold_award (g : Game) :
    (killStep g).playerGold = g.playerGold + 10 * ((g.killCount : ℤ) + 1)
    ∧ (g.killCount + 1 < g.nextLevelThreshold → (killStep g).killCount = g.killCount + 1)
    ∧ (g.nextLevelThreshold ≤ g.killCount + 1 → (killStep g).killCount = 0)
    ∧ (∀ (e : Enemy) (rest acc : List Enemy), e.HP ≤ 0 →
        reapAux g (e :: rest) acc = reapAux (killStep g) rest acc)
    ∧ (∀ (e : Enemy) (rest acc : List Enemy), ¬ e.HP ≤ 0 →
        reapAux g (e :: rest) acc = reapAux g rest (e :: acc)) := by
  refine ⟨?_, ?_, ?_, ?_, ?_⟩
  · unfold killStep
    by_cases h : g.nextLevelThreshold ≤ g.killCount + 1
    · simp only [h, if_pos, newLevel_playerGold]
      push_cast
      ring
    · simp only [h, if_neg, not_false_iff]
      push_cast
      ring
  · intro h
    unfold killStep
    simp only [if_neg (by omega : ¬ g.nextLevelThreshold ≤ g.killCount + 1)]
  · intro h
    unfold killStep
    simp only [if_pos (by omega : g.nextLevelThreshold ≤ g.killCount + 1), newLevel]
  · intro e rest acc he
    simp only [reapAux, if_pos he]
  · intro e rest acc he
    simp only [reapAux, if_neg he]

/-- Witness for C2: third kill of a level (counter at 2, threshold 25) pays
30 gold (spec Scenario C), and a kill that reaches the threshold resets the
counter. -/
def gC : Game := { NewGame (fun _ => 0) with killCount := 2, nextLevelThreshold := 25 }

/-- C2 applied at `gC` and at a threshold-reaching state. -/
theorem killStep_gold_award_witness :
    (killStep gC).playerGold = gC.playerGold + 10 * ((gC.killCount : ℤ) + 1)
    ∧ (killStep gC).killCount = 3
    ∧ (killStep { gC with killCount := 24 }).killCount = 0 :=
  ⟨(killStep_gold_award gC).1,
   (killStep_gold_award gC).2.1 (by decide),
   (killStep_gold_award { gC with killCount := 24 }).2.2.1 (by decide)⟩

/-- Closed form of the enemy-update loop: total escape damage is the number
of stepped enemies at or past the end times `escapeMitig`, and the survivors
are exactly the stepped enemies strictly before the end. -/
theorem moveEnemies_eq (d : Vec → Vec → ℚ) (path : List Vec) (armor dt : ℚ)
    (es : List Enemy) :
    moveEnemies d path armor dt es =
      ((((es.map (stepEnemy d path dt)).countP
          (fun e => decide ((((path.length : ℤ) - 1 : ℤ) : ℚ) ≤ e.T)) : ℕ) : ℚ)
          * escapeMitig armor,
       (es.map (stepEnemy d path dt)).filter
          (fun e => !decide ((((path.length : ℤ) - 1 : ℤ) : ℚ) ≤ e.T))) := by
  induction es with
  | nil => simp [moveEnemies]
  | cons e rest ih =>
    simp only [moveEnemies, ih, List.map_cons, List.countP_cons, List.filter_cons]
    by_cases h : (((path.length : ℤ) - 1 : ℤ) : ℚ) ≤ (stepEnemy d path dt e).T
    · have hd : (decide ((((path.length : ℤ) - 1 : ℤ) : ℚ) ≤ (stepEnemy d path dt e).T)) = true :=
        decide_eq_true h
      rw [if_pos h]
      refine Prod.ext ?_ ?_
      · simp only [hd, if_true, Bool.not_true]
        push_cast
        ring
      · simp only [hd, Bool.not_true, Bool.false_eq_true, if_false]
    · have hd : (decide ((((path.length : ℤ) - 1 : ℤ) : ℚ) ≤ (stepEnemy d path dt e).T)) = false :=
        decide_eq_false h
      rw [if_neg h]
      refine Prod.ext ?_ ?_
      · simp only [hd, Bool.false_eq_true, if_false]
        push_cast
        ring
      · simp only [hd, Bool.not_false, if_true]

/-- C3: over one tick's enemy update, each escaping enemy (stepped `T` at or
past the path's end) costs the player exactly
`max(1, PlayerEscapeBaseDamage - playerArmor)` HP and is removed from the
enemy list, while the player's gold and the level's kill counter are
untouched. -/
theorem escape_flat_damage (d : Vec → Vec → ℚ) (dt : ℚ) (g : Game) :
    (moveEnemiesG d dt g).playerGold = g.playerGold
    ∧ (moveEnemiesG d dt g).killCount = g.killCount
    ∧ escapeMitig g.playerArmor = max 1 (PlayerEscapeBaseDamage - g.playerArmor)
    ∧ (moveEnemiesG d dt g).playerHP = g.playerHP -
        (((g.enemies.map (stepEnemy d g.path dt)).countP
            (fun e => decide ((((g.path.length : ℤ) - 1 : ℤ) : ℚ) ≤ e.T)) : ℚ)
          * max 1 (PlayerEscapeBaseDamage - g.playerArmor))
    ∧ (moveEnemiesG d dt g).enemies = (g.enemies.map (stepEnemy d g.path dt)).filter
          (fun e => !decide ((((g.path.length : ℤ) - 1 : ℤ) : ℚ) ≤ e.T)) := by
  have hmit : escapeMitig g.playerArmor = max 1 (PlayerEscapeBaseDamage - g.playerArmor) := by
    unfold escapeMitig
    by_cases h : PlayerEscapeBaseDamage - g.playerArmor < 1
    · rw [if_pos h]; exact (max_eq_left h.le).symm
    · rw [if_neg h]; exact (max_eq_right (not_lt.mp h)).symm
  refine ⟨?_, ?_, hmit, ?_, ?_⟩
  · simp only [moveEnemiesG]
  · simp only [moveEnemiesG]
  · simp only [moveEnemiesG, moveEnemies_eq, hmit]
  · simp only [moveEnemiesG, moveEnemies_eq]

/-- C4 counterexample: the claim says no input, including negative `T`,
causes a failure — but for `T = -1/2` the code computes segment index
`⌊-1/2⌋ = -1`, fails the clamp test, and indexes `path[-1]`, a Go runtime
panic (modelled as `none`). -/
theorem posAlongPath_neg_input_panics :
    posAlongPathChecked (NewGame (fun _ => 0)).path (-(1 / 2 : ℚ)) = Option.none := by
  with_unfolding_all decide

/-- C4 (amended): for every `T ≥ 0` (negative `T` panics — see the
counterexample), `posAlongPath` on a path of at least two waypoints returns
a point without error: the final waypoint once `⌊T⌋` is at or beyond the
last segment index, else the linear interpolation within segment `⌊T⌋`. -/
theorem posAlongPath_total_on_nonneg (path : List Vec) (t : ℚ)
    (hlen : 2 ≤ path.length) (ht : 0 ≤ t) :
    posAlongPathChecked path t = some (posAlongPathD path t)
    ∧ ((path.length : ℤ) - 1 ≤ ⌊t⌋ →
        posAlongPathD path t = path.getD (path.length - 1) default)
    ∧ (⌊t⌋ < (path.length : ℤ) - 1 →
        posAlongPathD path t =
          ⟨(path.getD ⌊t⌋.toNat default).X +
              ((path.getD (⌊t⌋.toNat + 1) default).X - (path.getD ⌊t⌋.toNat default).X)
                * (t - (⌊t⌋ : ℚ)),
            (path.getD ⌊t⌋.toNat default).Y +
              ((path.getD (⌊t⌋.toNat + 1) default).Y - (path.getD ⌊t⌋.toNat default).Y)
                * (t - (⌊t⌋ : ℚ))⟩) := by
  have hfloor : 0 ≤ ⌊t⌋ := Int.floor_nonneg.mpr ht
  refine ⟨posAlongPathChecked_eq_some path t hlen ht, ?_, ?_⟩
  · intro hclamp
    unfold posAlongPathD
    rw [if_pos hclamp]
  · intro hin
    unfold posAlongPathD
    rw [if_neg (not_le.mpr hin)]
    have hg1 : getVec path ⌊t⌋ = path.getD ⌊t⌋.toNat default := by
      simp only [getVec, if_pos hfloor]
    have hg2 : getVec path (⌊t⌋ + 1) = path.getD (⌊t⌋.toNat + 1) default := by
      have h1 : (0:ℤ) ≤ ⌊t⌋ + 1 := by omega
      have h2 : (⌊t⌋ + 1).toNat = ⌊t⌋.toNat + 1 := by omega
      simp only [getVec, if_pos h1, h2]
    rw [hg1, hg2]

/-- Witness for C4 (amended): the starter path, `T = 3/2`. -/
theorem posAlongPath_total_on_nonneg_witness :
    posAlongPathChecked (NewGame (fun _ => 0)).path (3 / 2) =
      some (posAlongPathD (NewGame (fun _ => 0)).path (3 / 2)) :=
  (posAlongPath_total_on_nonneg _ _ (by decide) (by with_unfolding_all decide)).1

/-- C5: under the conditions the code guarantees (positive `dt`, positive
speeds, positive segment lengths), every enemy alive after a tick's movement
has a progress scalar that did not decrease and that is strictly below the
path's segment count (enemies reaching `len(path)-1` were removed in the
same tick); and a freshly spawned enemy (at any level ≥ 1) starts at `T = 0`
with a strictly positive speed, maintaining those hypotheses tick to tick. -/
theorem enemyT_monotone_bounded (d : Vec → Vec → ℚ) (path : List Vec) (armor dt : ℚ)
    (es : List Enemy) (hdt : 0 < dt) (hd : ∀ a b, 0 < d a b)
    (hsp : ∀ e ∈ es, 0 < e.Speed) :
    (∀ e' ∈ (moveEnemies d path armor dt es).2,
      e'.T < (((path.length : ℤ) - 1 : ℤ) : ℚ)
        ∧ ∃ e ∈ es, e' = stepEnemy d path dt e ∧ e.T ≤ e'.T)
    ∧ (∀ (r : Nat → Nat) (i : Nat) (level : ℤ), 1 ≤ level →
        0 < (spawnEnemy r i level).Speed ∧ (spawnEnemy r i level).T = 0) := by
  constructor
  · intro e' he'
    rw [moveEnemies_eq] at he'
    simp only [List.mem_filter, List.mem_map, Bool.not_eq_true', decide_eq_false_iff_not,
      not_le] at he'
    obtain ⟨⟨e, hmem, heq⟩, hlt⟩ := he'
    refine ⟨hlt, e, hmem, heq.symm, ?_⟩
    rw [← heq]
    have hT : (stepEnemy d path dt e).T = e.T + e.Speed * dt / 1000 /
        (if (⌊e.T⌋ : ℤ) < (path.length : ℤ) - 1 then
          d (getVec path ⌊e.T⌋) (getVec path (⌊e.T⌋ + 1)) else 1) := rfl
    rw [hT]
    have hseg : 0 < (if (⌊e.T⌋ : ℤ) < (path.length : ℤ) - 1 then
        d (getVec path ⌊e.T⌋) (getVec path (⌊e.T⌋ + 1)) else 1) := by
      split
      · exact hd _ _
      · norm_num
    have hnum : 0 ≤ e.Speed * dt / 1000 :=
      div_nonneg (mul_nonneg (hsp e hmem).le hdt.le) (by norm_num)
    exact le_add_of_nonneg_right (div_nonneg hnum hseg.le)
  · intro r i level hlvl
    constructor
    · show 0 < EnemySpeedBase + randFloat r (i + 1) * EnemySpeedRandMax
        + ((level - 1 : ℤ) : ℚ) * EnemySpeedPerLevel
      have h1 : 0 ≤ randFloat r (i + 1) := by
        unfold randFloat
        positivity
      have h2 : (0 : ℚ) ≤ ((level - 1 : ℤ) : ℚ) := by
        have : (0 : ℤ) ≤ level - 1 := by omega
        exact_mod_cast this
      have h3 : (0 : ℚ) < EnemySpeedBase := by norm_num [EnemySpeedBase]
      have h4 : (0 : ℚ) ≤ EnemySpeedRandMax := by norm_num [EnemySpeedRandMax]
      have h5 : (0 : ℚ) ≤ EnemySpeedPerLevel := by norm_num [EnemySpeedPerLevel]
      have := mul_nonneg h1 h4
      have := mul_nonneg h2 h5
      linarith
    · rfl

/-- Witness enemy and distance function for C5. -/
def eB : Enemy :=
  { HP := 50, MaxHP := 50, Armor := 0, Speed := 30, T := 0,
    BurnTime := 0, BurnLevel := 0, BurnTick := 0, SlowTime := 0, SlowFactor := 0 }

/-- Witness for C5: a two-waypoint path, one enemy, `dt` one frame. -/
theorem enemyT_monotone_bounded_witness :
    (∀ e' ∈ (moveEnemies (fun _ _ => 5) [⟨0, 0⟩, ⟨3, 4⟩] 2 dtFrame [eB]).2,
      e'.T < ((([⟨0, 0⟩, (⟨3, 4⟩ : Vec)].length : ℤ) - 1 : ℤ) : ℚ)
        ∧ ∃ e ∈ [eB], e' = stepEnemy (fun _ _ => 5) [⟨0, 0⟩, ⟨3, 4⟩] dtFrame e ∧ e.T ≤ e'.T)
    ∧ 0 < (spawnEnemy (fun _ => 0) 0 1).Speed :=
  ⟨(enemyT_monotone_bounded (fun _ _ => 5) [⟨0, 0⟩, ⟨3, 4⟩] 2 dtFrame [eB]
      (by with_unfolding_all decide) (fun _ _ => by norm_num)
      (by with_unfolding_all decide)).1,
   ((enemyT_monotone_bounded (fun _ _ => 5) [⟨0, 0⟩, ⟨3, 4⟩] 2 dtFrame [eB]
      (by with_unfolding_all decide) (fun _ _ => by norm_num)
      (by with_unfolding_all decide)).2 (fun _ => 0) 0 1 (by decide)).1⟩

/-- C6: immediately after any `newLevel`, the spawned-this-level counter and
the kill counter are 0, the fresh kill threshold lies in `[20, 30]`, and the
fresh spawn quota lies in `[30, 50]`. -/
theorem newLevel_invariants (g : Game) :
    (newLevel g).enemiesSpawned = 0
    ∧ (newLevel g).killCount = 0
    ∧ 20 ≤ (newLevel g).nextLevelThreshold ∧ (newLevel g).nextLevelThreshold ≤ 30
    ∧ 30 ≤ (newLevel g).enemiesToSpawn ∧ (newLevel g).enemiesToSpawn ≤ 50 := by
  have h11 : g.rng g.rngIdx % 11 < 11 := Nat.mod_lt _ (by norm_num)
  have h21 : g.rng (g.rngIdx + 1) % (EnemiesPerLevelMax - EnemiesPerLevelMin + 1) <
      EnemiesPerLevelMax - EnemiesPerLevelMin + 1 :=
    Nat.mod_lt _ (by norm_num [EnemiesPerLevelMax, EnemiesPerLevelMin])
  refine ⟨rfl, rfl, ?_, ?_, ?_, ?_⟩
  · show 20 ≤ 20 + g.rng g.rngIdx % 11
    omega
  · show 20 + g.rng g.rngIdx % 11 ≤ 30
    omega
  · show 30 ≤ EnemiesPerLevelMin + _
    simp only [EnemiesPerLevelMin]
    omega
  · show EnemiesPerLevelMin + g.rng (g.rngIdx + 1) % (EnemiesPerLevelMax - EnemiesPerLevelMin + 1) ≤ 50
    revert h21
    simp only [EnemiesPerLevelMin, EnemiesPerLevelMax]
    omega

/-- C7: at the shop, track `idx ∈ {0,1,2,3}` charges `base * (1 + level)`
gold (bases 50, 40, 60, 80); an affordable purchase deducts exactly the cost
and bumps only that track's level, an unaffordable one changes nothing, and
any purchase attempt keeps nonnegative gold nonnegative. -/
theorem shop_purchase_spec (g : Game) :
    ((50 * (1 + (g.upDamageLevel : ℤ)) ≤ g.playerGold → applyPurchase g 0 =
        { g with playerGold := g.playerGold - 50 * (1 + (g.upDamageLevel : ℤ)), upDamageLevel := g.upDamageLevel + 1 })
      ∧ (g.playerGold < 50 * (1 + (g.upDamageLevel : ℤ)) → applyPurchase g 0 = g))
    ∧ ((40 * (1 + (g.upSpeedLevel : ℤ)) ≤ g.playerGold → applyPurchase g 1 =
        { g with playerGold := g.playerGold - 40 * (1 + (g.upSpeedLevel : ℤ)), upSpeedLevel := g.upSpeedLevel + 1 })
      ∧ (g.playerGold < 40 * (1 + (g.upSpeedLevel : ℤ)) → applyPurchase g 1 = g))
    ∧ ((60 * (1 + (g.upPenLevel : ℤ)) ≤ g.playerGold → applyPurchase g 2 =
        { g with playerGold := g.playerGold - 60 * (1 + (g.upPenLevel : ℤ)), upPenLevel := g.upPenLevel + 1 })
      ∧ (g.playerGold < 60 * (1 + (g.upPenLevel : ℤ)) → applyPurchase g 2 = g))
    ∧ ((80 * (1 + (g.upAOELevel : ℤ)) ≤ g.playerGold → applyPurchase g 3 =
        { g with playerGold := g.playerGold - 80 * (1 + (g.upAOELevel : ℤ)), upAOELevel := g.upAOELevel + 1 })
      ∧ (g.playerGold < 80 * (1 + (g.upAOELevel : ℤ)) → applyPurchase g 3 = g))
    ∧ (∀ idx : ℕ, 0 ≤ g.playerGold → 0 ≤ (applyPurchase g idx).playerGold) := by
  refine ⟨⟨?_, ?_⟩, ⟨?_, ?_⟩, ⟨?_, ?_⟩, ⟨?_, ?_⟩, ?_⟩
  · intro h; simp only [applyPurchase, if_pos h]
  · intro h; simp only [applyPurchase, if_neg (not_le.mpr h)]
  · intro h; simp only [applyPurchase, if_pos h]
  · intro h; simp only [applyPurchase, if_neg (not_le.mpr h)]
  · intro h; simp only [applyPurchase, if_pos h]
  · intro h; simp only [applyPurchase, if_neg (not_le.mpr h)]
  · intro h; simp only [applyPurchase, if_pos h]
  · intro h; simp only [applyPurchase, if_neg (not_le.mpr h)]
  · intro idx hnn
    match idx with
    | 0 =>
      simp only [applyPurchase]
      split
      · next h => simp only []; omega
      · exact hnn
    | 1 =>
      simp only [applyPurchase]
      split
      · next h => simp only []; omega
      · exact hnn
    | 2 =>
      simp only [applyPurchase]
      split
      · next h => simp only []; omega
      · exact hnn
    | 3 =>
      simp only [applyPurchase]
      split
      · next h => simp only []; omega
      · exact hnn
    | n + 4 => exact hnn

/-- Witness game for C7: 50 gold, all upgrade levels 0. -/
def gS : Game := { NewGame (fun _ => 0) with playerGold := 50 }

/-- Witness for C7: with 50 gold, track 0 (cost 50) is bought — gold drops
to 0 and the damage level becomes 1; track 3 (cost 80) is blocked — the
state is unchanged; gold stays nonnegative. -/
theorem shop_purchase_spec_witness :
    (applyPurchase gS 0).playerGold = 0
    ∧ (applyPurchase gS 0).upDamageLevel = 1
    ∧ applyPurchase gS 3 = gS
    ∧ 0 ≤ (applyPurchase gS 1).playerGold := by
  have h0 := ((shop_purchase_spec gS).1).1 (by decide)
  have h3 := ((shop_purchase_spec gS).2.2.2.1).2 (by decide)
  have hnn := (shop_purchase_spec gS).2.2.2.2 1 (by decide)
  refine ⟨?_, ?_, h3, hnn⟩
  · rw [h0]; decide
  · rw [h0]; decide

/-- C8: whenever the level-10+ branch of question generation draws the
division operator, the question is `a / b` with `b = 2 + Intn(18) ∈ [2,19]`,
quotient `q = 2 + Intn(12) ∈ [2,13]`, `a = b * q`, and the recorded answer
is exactly `q` — the division is exact, with zero remainder. -/
theorem genQuestion_division_exact (r : Nat → Nat) (i : Nat) (level : ℤ)
    (hlvl : 10 ≤ level) (hop : r i % 4 = 3) :
    (genQuestionData r i level).op = "/"
    ∧ 2 ≤ (genQuestionData r i level).b ∧ (genQuestionData r i level).b ≤ 19
    ∧ 2 ≤ (genQuestionData r i level).ans ∧ (genQuestionData r i level).ans ≤ 13
    ∧ (genQuestionData r i level).a = (genQuestionData r i level).b * (genQuestionData r i level).ans
    ∧ (genQuestionData r i level).a % (genQuestionData r i level).b = 0 := by
  have h18 : r (i + 1) % 18 < 18 := Nat.mod_lt _ (by norm_num)
  have h12 : r (i + 2) % 12 < 12 := Nat.mod_lt _ (by norm_num)
  have hb : (2 + ((r (i + 1) % 18 : ℕ) : ℤ)) ≠ 0 := by positivity
  have hq : ((2 + ((r (i + 1) % 18 : ℕ) : ℤ)) * (2 + ((r (i + 2) % 12 : ℕ) : ℤ)))
      / (2 + ((r (i + 1) % 18 : ℕ) : ℤ)) = 2 + ((r (i + 2) % 12 : ℕ) : ℤ) :=
    Int.mul_ediv_cancel_left _ hb
  have hgen : genQuestionData r i level =
      ⟨(2 + ((r (i + 1) % 18 : ℕ) : ℤ)) * (2 + ((r (i + 2) % 12 : ℕ) : ℤ)), "/",
        2 + ((r (i + 1) % 18 : ℕ) : ℤ),
        (2 + ((r (i + 1) % 18 : ℕ) : ℤ)) * (2 + ((r (i + 2) % 12 : ℕ) : ℤ))
          / (2 + ((r (i + 1) % 18 : ℕ) : ℤ)), i + 3⟩ := by
    unfold genQuestionData
    rw [if_neg (by omega : ¬ level ≤ 2), if_neg (by omega : ¬ level ≤ 5),
      if_neg (by omega : ¬ level ≤ 9), if_pos hop]
  rw [hgen]
  refine ⟨rfl, ?_, ?_, ?_, ?_, ?_, ?_⟩
  · show (2 : ℤ) ≤ 2 + ((r (i + 1) % 18 : ℕ) : ℤ)
    have : (0 : ℤ) ≤ ((r (i + 1) % 18 : ℕ) : ℤ) := Int.ofNat_nonneg _
    omega
  · show 2 + ((r (i + 1) % 18 : ℕ) : ℤ) ≤ 19
    have : ((r (i + 1) % 18 : ℕ) : ℤ) < 18 := by exact_mod_cast h18
    omega
  · show (2 : ℤ) ≤ (2 + ((r (i + 1) % 18 : ℕ) : ℤ)) * (2 + ((r (i + 2) % 12 : ℕ) : ℤ))
      / (2 + ((r (i + 1) % 18 : ℕ) : ℤ))
    rw [hq]
    have : (0 : ℤ) ≤ ((r (i + 2) % 12 : ℕ) : ℤ) := Int.ofNat_nonneg _
    omega
  · show (2 + ((r (i + 1) % 18 : ℕ) : ℤ)) * (2 + ((r (i + 2) % 12 : ℕ) : ℤ))
      / (2 + ((r (i + 1) % 18 : ℕ) : ℤ)) ≤ (13 : ℤ)
    rw [hq]
    have : ((r (i + 2) % 12 : ℕ) : ℤ) < 12 := by exact_mod_cast h12
    omega
  · show (2 + ((r (i + 1) % 18 : ℕ) : ℤ)) * (2 + ((r (i + 2) % 12 : ℕ) : ℤ)) =
      (2 + ((r (i + 1) % 18 : ℕ) : ℤ)) * ((2 + ((r (i + 1) % 18 : ℕ) : ℤ))
        * (2 + ((r (i + 2) % 12 : ℕ) : ℤ)) / (2 + ((r (i + 1) % 18 : ℕ) : ℤ)))
    rw [hq]
  · exact Int.mul_emod_right _ _

/-- Witness for C8: constant stream 3 at level 10 draws division and yields
`25 / 5 = 5`. -/
theorem genQuestion_division_exact_witness :
    (genQuestionData (fun _ => 3) 0 10).op = "/"
    ∧ (genQuestionData (fun _ => 3) 0 10).a =
        (genQuestionData (fun _ => 3) 0 10).b * (genQuestionData (fun _ => 3) 0 10).ans :=
  ⟨(genQuestion_division_exact (fun _ => 3) 0 10 (by decide) (by decide)).1,
   (genQuestion_division_exact (fun _ => 3) 0 10 (by decide) (by decide)).2.2.2.2.2.1⟩

/-- Equality of every `Enemy` field except the slow-status pair
(`SlowTime`, `SlowFactor`). -/
def sameExceptSlow (e1 e2 : Enemy) : Prop :=
  e1.HP = e2.HP ∧ e1.MaxHP = e2.MaxHP ∧ e1.Armor = e2.Armor ∧ e1.Speed = e2.Speed
    ∧ e1.T = e2.T ∧ e1.BurnTime = e2.BurnTime ∧ e1.BurnLevel = e2.BurnLevel
    ∧ e1.BurnTick = e2.BurnTick

/-- The movement fraction of one tick, exposed for reasoning: `stepEnemy`
only reads `Speed` and `T`. -/
theorem stepEnemy_T (d : Vec → Vec → ℚ) (path : List Vec) (dt : ℚ) (e : Enemy) :
    (stepEnemy d path dt e).T = e.T + e.Speed * dt / 1000 /
      (if (⌊e.T⌋ : ℤ) < (path.length : ℤ) - 1 then
        d (getVec path ⌊e.T⌋) (getVec path (⌊e.T⌋ + 1)) else 1) := rfl

/-- C9: the per-tick movement update is independent of the slow status.
Two enemies identical except in `SlowFactor`/`SlowTime` receive the same
progress increment (the fraction is computed from `Speed`, `dt` and the
segment length only, never multiplying `SlowFactor`); whole enemy lists
related this way produce the same escape damage and stay related after the
movement loop; and the slow-status processing itself never changes `T` or
`Speed`. -/
theorem movement_ignores_slow (d : Vec → Vec → ℚ) (path : List Vec) (dt : ℚ) :
    (∀ e1 e2 : Enemy, sameExceptSlow e1 e2 →
      (stepEnemy d path dt e1).T - e1.T = (stepEnemy d path dt e2).T - e2.T
        ∧ (stepEnemy d path dt e1).T = (stepEnemy d path dt e2).T)
    ∧ (∀ (armor : ℚ) (es1 es2 : List Enemy), List.Forall₂ sameExceptSlow es1 es2 →
        (moveEnemies d path armor dt es1).1 = (moveEnemies d path armor dt es2).1
          ∧ List.Forall₂ sameExceptSlow (moveEnemies d path armor dt es1).2
              (moveEnemies d path armor dt es2).2)
    ∧ (∀ (dt' : ℚ) (e : Enemy), (statusTick dt' e).T = e.T ∧ (statusTick dt' e).Speed = e.Speed) := by
  have hstep : ∀ e1 e2 : Enemy, sameExceptSlow e1 e2 →
      (stepEnemy d path dt e1).T = (stepEnemy d path dt e2).T := by
    intro e1 e2 h
    obtain ⟨-, -, -, hSp, hT, -, -, -⟩ := h
    rw [stepEnemy_T, stepEnemy_T, hSp, hT]
  have hsame : ∀ e1 e2 : Enemy, sameExceptSlow e1 e2 →
      sameExceptSlow (stepEnemy d path dt e1) (stepEnemy d path dt e2) := by
    intro e1 e2 h
    obtain ⟨hHP, hMax, hArm, hSp, hT, hBT, hBL, hBTk⟩ := h
    exact ⟨hHP, hMax, hArm, hSp, hstep e1 e2 ⟨hHP, hMax, hArm, hSp, hT, hBT, hBL, hBTk⟩,
      hBT, hBL, hBTk⟩
  refine ⟨?_, ?_, ?_⟩
  · intro e1 e2 h
    have hT := (h.2.2.2.2).1
    have := hstep e1 e2 h
    exact ⟨by rw [this, hT], this⟩
  · intro armor es1 es2 hrel
    induction hrel with
    | nil => exact ⟨rfl, List.Forall₂.nil⟩
    | cons hr hrest ih =>
      rename_i e1 e2 l1 l2
      have hTs := hstep e1 e2 hr
      simp only [moveEnemies]
      by_cases hesc : (((path.length : ℤ) - 1 : ℤ) : ℚ) ≤ (stepEnemy d path dt e1).T
      · have hesc2 : (((path.length : ℤ) - 1 : ℤ) : ℚ) ≤ (stepEnemy d path dt e2).T := by
          rw [← hTs]; exact hesc
        rw [if_pos hesc, if_pos hesc2]
        exact ⟨by simp only [ih.1], ih.2⟩
      · have hesc2 : ¬ (((path.length : ℤ) - 1 : ℤ) : ℚ) ≤ (stepEnemy d path dt e2).T := by
          rw [← hTs]; exact hesc
        rw [if_neg hesc, if_neg hesc2]
        exact ⟨ih.1, List.Forall₂.cons (hsame e1 e2 hr) ih.2⟩
  · intro dt' e
    constructor
    · simp only [statusTick]
      repeat' split
      all_goals rfl
    · simp only [statusTick]
      repeat' split
      all_goals rfl

/-- Witness enemies for C9: identical up to the slow fields. -/
def eSlowA : Enemy :=
  { HP := 80, MaxHP := 80, Armor := 1, Speed := 20, T := 0,
    BurnTime := 0, BurnLevel := 0, BurnTick := 0, SlowTime := 0, SlowFactor := 0 }

/-- Same enemy under an active slow status. -/
def eSlowB : Enemy := { eSlowA with SlowTime := 900, SlowFactor := 1 / 2 }

/-- Witness for C9: the slowed and unslowed copies advance by the same
amount in one frame. -/
theorem movement_ignores_slow_witness :
    (stepEnemy (fun _ _ => 5) [⟨0, 0⟩, ⟨3, 4⟩] dtFrame eSlowA).T - eSlowA.T =
      (stepEnemy (fun _ _ => 5) [⟨0, 0⟩, ⟨3, 4⟩] dtFrame eSlowB).T - eSlowB.T :=
  ((movement_ignores_slow (fun _ _ => 5) [⟨0, 0⟩, ⟨3, 4⟩] dtFrame).1 eSlowA eSlowB
    ⟨rfl, rfl, rfl, rfl, rfl, rfl, rfl, rfl⟩).1

/-- C10 counterexample: with the shop already open and a challenge open
(reachable: open the shop with B, then open a challenge with C), pressing B
closes the shop but leaves the challenge active — the B key does *not*
close an open challenge unconditionally. -/
def gBug : Game :=
  { NewGame (fun _ => 0) with
    challengeActive := true
    shopActive := true
    question := some { Text := "1 + 1", Ans := 2 } }

/-- The B-key-only input. -/
def kOnlyB : Keys := { Keys.none with keyB := true }

/-- The claim fails at `gBug`: after the B key the challenge is still open. -/
theorem keyB_shop_open_keeps_challenge :
    (handleKeys gBug kOnlyB).challengeActive = true := by
  with_unfolding_all decide

/-- C10 (amended): if the B key arrives while a challenge is open and the
shop is *closed*, the toggle opens the shop and closes the challenge
immediately, without evaluating the typed answer — no reward can be issued
(the towers, which rewards modify, are untouched) regardless of the input
buffer.  (When the shop was already open, B closes the shop and leaves the
challenge open — see the counterexample.) -/
theorem keyB_closes_challenge (g : Game) (k : Keys)
    (hc : g.challengeActive = true) (hs : g.shopActive = false) (hb : k.keyB = true) :
    (handleKeys g k).challengeActive = false
    ∧ (handleKeys g k).shopActive = true
    ∧ (handleKeys g k).towers = g.towers := by
  have h1 : ¬ (k.keyC = true ∧ g.challengeActive = false) := by simp [hc]
  simp only [handleKeys]
  rw [if_neg h1, if_pos hb]
  simp [hs]

/-- Witness for C10 (amended): concrete game with the shop closed. -/
def gC10 : Game :=
  { NewGame (fun _ => 0) with
    challengeActive := true
    question := some { Text := "1 + 1", Ans := 2 }
    inputBuf := "2" }

/-- C10 (amended) applied at `gC10`: the challenge closes, the shop opens,
and no reward is issued even though the buffer holds the correct answer. -/
theorem keyB_closes_challenge_witness :
    (handleKeys gC10 kOnlyB).challengeActive = false
    ∧ (handleKeys gC10 kOnlyB).shopActive = true
    ∧ (handleKeys gC10 kOnlyB).towers = gC10.towers :=
  keyB_closes_challenge gC10 kOnlyB (by decide) (by decide) (by decide)

end MathTD
